import Mathlib

/-!
Verification of the Overthinking Meter CLI (`app.py`).

Modelling conventions for the shallow embedding:

* Python strings are modelled as `List Char` (named `Str` below); `str.strip`
  becomes `pyStrip`, `str.split(sep)` becomes `pySplit`, `str.isdigit`
  becomes `pyIsDigit` (restricted to ASCII decimal digits, which is the
  alphabet actually used by the program's own log format), substring
  membership (`in`) becomes `strContains`, and `str.lower` becomes `pyLower`.
* Python numbers: `int` is `Int` / `Nat`; `float` values are modelled as
  exact rationals (`ℚ`).  The literals `0.9` and `1.1` of the source are
  rendered as `9/10` and `11/10`.
* `datetime.strptime(s, "%Y-%m-%d %H:%M:%S")` is modelled by
  `parseTimestamp`, which accepts the canonical 19-character layout that
  the program itself writes, validating field ranges (including leap
  years) the way `strptime` does.  A parsed datetime is compared on the
  timeline through `toEpochSeconds` (proleptic Gregorian day count), and
  `timedelta(days=7)` is `7*86400` seconds, so `dt >= now - timedelta(7)`
  becomes an integer comparison of epoch seconds.
* File writes are modelled by returning `Option` payloads: `none` means
  "nothing written", `some x` means "the file is written with content
  determined by `x`".  The purely decorative text of the report layout is
  not re-rendered; the payload that determines it is kept.
-/

namespace App

/-- Python strings, modelled as lists of characters. -/
abbrev Str := List Char

/-- Convenience conversion from Lean string literals. -/
def str (s : String) : Str := s.toList

/-- The whitespace class stripped by Python `str.strip()` (ASCII part). -/
def isSpace (c : Char) : Bool :=
  c = ' ' || c = '\t' || c = '\n' || c = '\r' || c = '\x0b' || c = '\x0c'

/-- Model of Python `str.strip()`: drop whitespace from both ends. -/
def pyStrip (l : Str) : Str := List.rdropWhile isSpace (List.dropWhile isSpace l)

/-- ASCII decimal digit test. -/
def isDigitChar (c : Char) : Bool := '0' ≤ c && c ≤ '9'

/-- Model of Python `str.isdigit()` on ASCII text: non-empty and all digits. -/
def pyIsDigit (l : Str) : Bool := !l.isEmpty && l.all isDigitChar

/-- Value of a digit string, as computed by Python `int(...)` on it. -/
def digitsToNat (l : Str) : Nat := l.foldl (fun a c => a * 10 + (c.toNat - 48)) 0

/-- Decimal rendering, fuel-indexed so that it reduces definitionally. -/
def natToDigitsAux : Nat → Nat → Str
  | 0, _ => []
  | fuel + 1, n =>
    if n < 10 then [Char.ofNat (48 + n)]
    else natToDigitsAux fuel (n / 10) ++ [Char.ofNat (48 + n % 10)]

/-- Decimal rendering of a natural number (Python `str(n)` for `n ≥ 0`). -/
def natToDigits (n : Nat) : Str := natToDigitsAux (n + 1) n

/-- Decimal rendering of a Python integer (Python `str(i)`). -/
def intToStr (i : Int) : Str :=
  if i < 0 then '-' :: natToDigits i.natAbs else natToDigits i.toNat

/-- Model of Python `str.split(sep)` (single-character separator). -/
def pySplit (sep : Char) : Str → List Str
  | [] => [[]]
  | c :: rest =>
    let r := pySplit sep rest
    if c = sep then [] :: r
    else (c :: r.headD []) :: r.tail

/-- Model of Python substring membership `needle in hay`. -/
def strContains : Str → Str → Bool
  | hay, needle =>
    needle.isPrefixOf hay ||
    match hay with
    | [] => false
    | _ :: t => strContains t needle

/-- Model of Python `str.lower()` (ASCII). -/
def pyLower (l : Str) : Str := l.map Char.toLower

/-- Python `parts[i]` on a split result (total here; every use is guarded
by a length check, as in the source). -/
def field (parts : List Str) (i : Nat) : Str := parts.getD i []

/-- One logged overthinking event, as stored in the in-memory `thoughts`
list of `OverthinkingTracker` (`app.py`, dict with keys
timestamp/category/intensity/note). -/
structure Episode where
  timestamp : Str
  category : Str
  intensity : Int
  note : Str
deriving DecidableEq

/-- `OverthinkingTracker.save_thoughts` (app.py:105-117): the line written
for one episode, `f"{timestamp}|{category}|{intensity}|{note}"` (the
trailing newline is the line separator of the file, not part of the
line). -/
def serializeEpisode (e : Episode) : Str :=
  e.timestamp ++ '|' :: e.category ++ '|' :: intToStr e.intensity ++ '|' :: e.note

/-- `OverthinkingTracker.load_thoughts` (app.py:82-103), body of the
per-line loop: strip the line; if it is non-empty and contains `'|'`,
split on `'|'`; if there are at least 4 parts build the episode record,
with `int(parts[2].strip()) if parts[2].strip().isdigit() else 5` for
the intensity; otherwise the line yields nothing. -/
def parseLine (line : Str) : Option Episode :=
  let l := pyStrip line
  if l = [] then none
  else if '|' ∈ l then
    let parts := pySplit '|' l
    if 4 ≤ parts.length then
      some { timestamp := pyStrip (field parts 0)
           , category := pyStrip (field parts 1)
           , intensity :=
               if pyIsDigit (pyStrip (field parts 2)) then
                 ((digitsToNat (pyStrip (field parts 2))) : Int)
               else 5
           , note := pyStrip (field parts 3) }
    else none
  else none

/-- `OverthinkingTracker.load_thoughts` over the whole file, given as its
list of lines: the episodes produced by the per-line parser, in order. -/
def loadThoughts (lines : List Str) : List Episode := lines.filterMap parseLine

/-- One row of the daily CSV (`{'date': ..., 'minutes': ...}` in
`DailyDataAnalyzer.read_daily_data`); minutes is a Python float, modelled
as an exact rational. -/
structure DailyEntry where
  date : Str
  minutes : ℚ
deriving DecidableEq

/-- Model of Python `float(s)` on the plain decimal notations used by the
CSV input: optional sign, an integer part and an optional fractional part
(at least one digit overall).  Exponent notation, `inf`/`nan` and digit
underscores are outside the model. -/
def parseFloat (l : Str) : Option ℚ :=
  let neg : Bool := l.headD ' ' = '-'
  let body : Str :=
    match l with
    | '+' :: r => r
    | '-' :: r => r
    | _ => l
  let intPart := body.takeWhile isDigitChar
  let rest := body.dropWhile isDigitChar
  let signed : ℚ → ℚ := fun x => if neg then -x else x
  match rest with
  | [] => if intPart.isEmpty then none else some (signed (digitsToNat intPart : ℚ))
  | '.' :: frac =>
    if frac.all isDigitChar ∧ ¬(intPart.isEmpty ∧ frac.isEmpty) then
      some (signed ((digitsToNat intPart : ℚ) + (digitsToNat frac : ℚ) / 10 ^ frac.length))
    else none
  | _ => none

/-- The case-insensitive header keywords of
`DailyDataAnalyzer.read_daily_data` (app.py:520). -/
def csvKeywords : List Str := [str "date", str "minutes", str "time", str "duration"]

/-- `any(keyword in line.lower() for keyword in [...])` on a (stripped)
line. -/
def hasHeaderKeyword (l : Str) : Bool :=
  csvKeywords.any (fun k => strContains (pyLower l) k)

/-- The per-line loop of `DailyDataAnalyzer.read_daily_data`
(app.py:512-533), with `n` the 1-based physical line number: skip blank
lines, skip line 1 and keyword lines, split the rest on `','`, and keep
rows with at least two fields whose second field parses as a float. -/
def readRows : Nat → List Str → List DailyEntry
  | _, [] => []
  | n, line :: rest =>
    let l := pyStrip line
    if l = [] then readRows (n + 1) rest
    else if n = 1 ∨ hasHeaderKeyword l = true then readRows (n + 1) rest
    else
      let parts := pySplit ',' l
      if 2 ≤ parts.length then
        match parseFloat (pyStrip (field parts 1)) with
        | some m => { date := pyStrip (field parts 0), minutes := m } :: readRows (n + 1) rest
        | none => readRows (n + 1) rest
      else readRows (n + 1) rest

/-- `DailyDataAnalyzer.read_daily_data` on the file's list of lines. -/
def readDailyData (lines : List Str) : List DailyEntry := readRows 1 lines

/-- `DailyDataAnalyzer._calculate_median` (app.py:561-571). -/
def calculateMedian (values : List ℚ) : ℚ :=
  let sortedVals := List.insertionSort (· ≤ ·) values
  let n := sortedVals.length
  let mid := n / 2
  if n % 2 = 0 then (sortedVals.getD (mid - 1) 0 + sortedVals.getD mid 0) / 2
  else sortedVals.getD mid 0

/-- `DailyDataAnalyzer._calculate_trend` (app.py:573-589); the float
literals `0.9` and `1.1` are the rationals `9/10` and `11/10`. -/
def calculateTrend (minutes : List ℚ) : String :=
  if minutes.length < 2 then "neutral"
  else
    let mid := minutes.length / 2
    let firstHalfAvg : ℚ :=
      if 0 < mid then (minutes.take mid).sum / (mid : ℚ) else 0
    let secondHalfAvg : ℚ :=
      if mid < minutes.length then (minutes.drop mid).sum / ((minutes.length - mid : ℕ) : ℚ)
      else 0
    if secondHalfAvg < firstHalfAvg * (9 / 10) then "improving"
    else if firstHalfAvg * (11 / 10) < secondHalfAvg then "increasing"
    else "stable"

/-- Spec-side reading (§4.5 of the spec): the mean of the first
`floor(n/2)` items of the series. -/
def specFirstHalfMean (l : List ℚ) : ℚ :=
  (l.take (l.length / 2)).sum / ((l.length / 2 : ℕ) : ℚ)

/-- Spec-side reading (§4.5 of the spec): the mean of the remaining
items of the series. -/
def specSecondHalfMean (l : List ℚ) : ℚ :=
  (l.drop (l.length / 2)).sum / ((l.length - l.length / 2 : ℕ) : ℚ)

/-- Python `max` over a non-empty list. -/
def pyMax (l : List ℚ) : ℚ := l.foldl max (l.headD 0)

/-- Python `min` over a non-empty list. -/
def pyMin (l : List ℚ) : ℚ := l.foldl min (l.headD 0)

/-- The statistics snapshot built by `DailyDataAnalyzer.calculate_stats`. -/
structure Stats where
  days_tracked : Nat
  avg_minutes : ℚ
  median_minutes : ℚ
  highest_day : ℚ
  lowest_day : ℚ
  total_hours : ℚ
  trend : String
deriving DecidableEq

/-- `DailyDataAnalyzer.calculate_stats` (app.py:542-559): `None` on empty
input, otherwise the snapshot of the minutes series. -/
def calculateStats (data : List DailyEntry) : Option Stats :=
  if data.isEmpty then none
  else
    let minutes := data.map (fun d => d.minutes)
    some { days_tracked := minutes.length
         , avg_minutes := minutes.sum / (minutes.length : ℚ)
         , median_minutes := calculateMedian minutes
         , highest_day := pyMax minutes
         , lowest_day := pyMin minutes
         , total_hours := minutes.sum / 60
         , trend := calculateTrend minutes }

/-- A parsed `datetime` value (second precision, proleptic Gregorian). -/
structure Timestamp where
  year : Nat
  month : Nat
  day : Nat
  hour : Nat
  minute : Nat
  second : Nat
deriving DecidableEq

/-- Gregorian leap-year rule (as used by `datetime`). -/
def isLeapYear (y : Nat) : Bool := (y % 4 = 0 && y % 100 ≠ 0) || y % 400 = 0

/-- Length of a month. -/
def daysInMonth (y m : Nat) : Nat :=
  if m = 2 then (if isLeapYear y then 29 else 28)
  else if m = 4 ∨ m = 6 ∨ m = 9 ∨ m = 11 then 30 else 31

/-- Days in the months of year `y` strictly before month `m`. -/
def daysBeforeMonth (y m : Nat) : Nat :=
  ((List.range (m - 1)).map (fun i => daysInMonth y (i + 1))).sum

/-- Number of leap years in `1..n`. -/
def leapCount (n : Nat) : Nat := n / 4 - n / 100 + n / 400

/-- Day index of a date on the proleptic Gregorian timeline
(0 = 0001-01-01, the `datetime.min` date). -/
def toEpochDays (t : Timestamp) : Nat :=
  365 * (t.year - 1) + leapCount (t.year - 1) + daysBeforeMonth t.year t.month + (t.day - 1)

/-- Second index of a `datetime` on the timeline; `datetime` comparison
(`dt >= seven_days_ago`) is comparison of these values, and
`timedelta(days=7)` is `7*86400` of them. -/
def toEpochSeconds (t : Timestamp) : Nat :=
  86400 * toEpochDays t + 3600 * t.hour + 60 * t.minute + t.second

/-- Pair of decimal digit characters to its value, when valid. -/
def twoDigits (a b : Char) : Option Nat :=
  if isDigitChar a && isDigitChar b then some ((a.toNat - 48) * 10 + (b.toNat - 48))
  else none

/-- Model of `datetime.strptime(s, "%Y-%m-%d %H:%M:%S")` on the canonical
19-character layout the program writes, validating the ranges `strptime`
validates (month 1-12, day fitting the month and leap year, hour ≤ 23,
minute/second ≤ 59, year ≥ 1); anything else raises, i.e. yields `none`. -/
def parseTimestamp (l : Str) : Option Timestamp :=
  match l with
  | [y1, y2, y3, y4, s1, m1, m2, s2, d1, d2, s3, h1, h2, s4, i1, i2, s5, c1, c2] =>
    if s1 = '-' ∧ s2 = '-' ∧ s3 = ' ' ∧ s4 = ':' ∧ s5 = ':' ∧
        ([y1, y2, y3, y4].all isDigitChar) = true then
      match twoDigits m1 m2, twoDigits d1 d2, twoDigits h1 h2,
          twoDigits i1 i2, twoDigits c1 c2 with
      | some mo, some d, some h, some mi, some s =>
        let y := digitsToNat [y1, y2, y3, y4]
        if 1 ≤ y ∧ 1 ≤ mo ∧ mo ≤ 12 ∧ 1 ≤ d ∧ d ≤ daysInMonth y mo ∧
            h ≤ 23 ∧ mi ≤ 59 ∧ s ≤ 59 then
          some { year := y, month := mo, day := d, hour := h, minute := mi, second := s }
        else none
      | _, _, _, _, _ => none
    else none
  | _ => none

/-- The filtering loop of `OverthinkingTracker.weekly_summary`
(app.py:317-329): keep the episodes whose timestamp parses and is
`>= now - timedelta(days=7)`; a parse failure hits `except: continue`
and drops the episode.  `nowSec` is the epoch-second position of the
reference instant `datetime.now()`. -/
def weeklyFilter (nowSec : Int) (thoughts : List Episode) : List Episode :=
  thoughts.filter fun t =>
    match parseTimestamp t.timestamp with
    | some dt => decide (nowSec - 7 * 86400 ≤ (toEpochSeconds dt : Int))
    | none => false

/-- Whether an episode's timestamp parses (the `try` in
`analyze_patterns` succeeds for it). -/
def parseableTs (t : Episode) : Bool := (parseTimestamp t.timestamp).isSome

/-- The "Average Intensity" figure of `OverthinkingTracker.analyze_patterns`
(app.py:222-254): `none` when there are no thoughts or when no timestamp
parses (the function returns early in both cases); otherwise
`intensity_sum / len(self.thoughts)`, where `intensity_sum` accumulates
only over episodes whose timestamp parsed. -/
def analyzeAvgIntensity (thoughts : List Episode) : Option ℚ :=
  if thoughts.isEmpty then none
  else
    let parsed := thoughts.filter parseableTs
    if parsed.isEmpty then none
    else some (((parsed.map (fun t => (t.intensity : ℚ))).sum) / (thoughts.length : ℚ))

/-- `OverthinkingTracker.save_thoughts` (app.py:105-117) as a persistence
effect: in dry-run mode nothing is written (`none`); otherwise the file
is rewritten with one serialized line per episode. -/
def saveThoughts (dryRun : Bool) (thoughts : List Episode) : Option (List Str) :=
  if dryRun then none else some (thoughts.map serializeEpisode)

/-- `DailyDataAnalyzer.export_report` (app.py:674-706) as a persistence
effect: with no statistics it reports an error and writes nothing;
otherwise it writes the report, whose content is determined by the
statistics snapshot and the raw series (the fixed textual layout is not
re-rendered here).  The function has no dry-run parameter because the
source function never consults the flag. -/
def exportReport (stats : Option Stats) (data : List DailyEntry) : Option (Stats × List DailyEntry) :=
  match stats with
  | none => none
  | some s => some (s, data)

/-- The menu branch of `main` that performs the report export
(app.py:784-788), in a program state whose dry-run flag is `dryRun`: the
branch calls `export_report` unconditionally, so the flag is unused. -/
def exportAction (dryRun : Bool) (lastStats : Option Stats) (lastData : List DailyEntry) :
    Option (Stats × List DailyEntry) :=
  exportReport lastStats lastData

/-- Epoch-second position of the reference instant `2025-01-15 12:00:00`
used by the concrete weekly-window examples. -/
def nowRef : Int :=
  ((parseTimestamp (str "2025-01-15 12:00:00")).map
    (fun d => (toEpochSeconds d : Int))).getD 0

/-! Helper lemmas about the string model. -/

theorem dropWhile_eq_self_of_forall {α} {p : α → Bool} {l : List α}
    (h : ∀ c ∈ l, p c = false) : List.dropWhile p l = l := by
  cases l with
  | nil => rfl
  | cons c t => simp [List.dropWhile_cons, h c (List.mem_cons_self c t)]

theorem takeWhile_eq_self_of_forall {α} {p : α → Bool} {l : List α}
    (h : ∀ c ∈ l, p c = true) : List.takeWhile p l = l := by
  induction l with
  | nil => rfl
  | cons c t ih =>
    rw [List.takeWhile_cons, if_pos (h c (List.mem_cons_self c t)),
      ih fun c hc => h c (List.mem_cons_of_mem _ hc)]

theorem dropWhile_append_cons {α} {p : α → Bool} {a : List α} (x : α) (b : List α)
    (ha : List.dropWhile p a = a) (hx : p x = false) :
    List.dropWhile p (a ++ x :: b) = a ++ x :: b := by
  rw [List.dropWhile_append, ha]
  cases a with
  | nil => simp [List.dropWhile_cons, hx]
  | cons c t => simp

theorem rdropWhile_append_cons {α} {p : α → Bool} (a : List α) (x : α) {b : List α}
    (hb : List.rdropWhile p b = b) (hx : p x = false) :
    List.rdropWhile p (a ++ x :: b) = a ++ x :: b := by
  have hb' : List.dropWhile p b.reverse = b.reverse := by
    simpa [List.rdropWhile] using congrArg List.reverse hb
  have hrev : (a ++ x :: b).reverse = b.reverse ++ x :: a.reverse := by simp
  rw [List.rdropWhile, hrev, dropWhile_append_cons x a.reverse hb' hx]
  simp

theorem pyStrip_eq_self_iff {l : Str} :
    pyStrip l = l ↔ List.dropWhile isSpace l = l ∧ List.rdropWhile isSpace l = l := by
  constructor
  · intro h
    have h1 : List.dropWhile isSpace l = l := by
      have hsuf : List.dropWhile isSpace l <:+ l := List.dropWhile_suffix isSpace
      have hpre : pyStrip l <+: List.dropWhile isSpace l :=
        List.rdropWhile_prefix isSpace (List.dropWhile isSpace l)
      have hlen1 : l.length ≤ (List.dropWhile isSpace l).length := by
        have := hpre.length_le
        rwa [h] at this
      exact hsuf.eq_of_length (le_antisymm hsuf.length_le hlen1)
    refine ⟨h1, ?_⟩
    rwa [pyStrip, h1] at h
  · intro h
    rw [pyStrip, h.1, h.2]

theorem pyStrip_of_forall_not_space {l : Str} (h : ∀ c ∈ l, isSpace c = false) :
    pyStrip l = l := by
  refine pyStrip_eq_self_iff.2 ⟨dropWhile_eq_self_of_forall h, ?_⟩
  have h' : ∀ c ∈ l.reverse, isSpace c = false := fun c hc => h c (List.mem_reverse.1 hc)
  rw [List.rdropWhile, dropWhile_eq_self_of_forall h', List.reverse_reverse]

theorem pyStrip_append_sep {a : Str} (m : Str) {b : Str}
    (ha : pyStrip a = a) (hb : pyStrip b = b) :
    pyStrip (a ++ '|' :: (m ++ '|' :: b)) = a ++ '|' :: (m ++ '|' :: b) := by
  refine pyStrip_eq_self_iff.2 ⟨?_, ?_⟩
  · exact dropWhile_append_cons '|' (m ++ '|' :: b) (pyStrip_eq_self_iff.1 ha).1 (by decide)
  · have hassoc : a ++ '|' :: (m ++ '|' :: b) = (a ++ '|' :: m) ++ '|' :: b := by simp
    rw [hassoc, rdropWhile_append_cons (a ++ '|' :: m) '|' (pyStrip_eq_self_iff.1 hb).2
      (by decide)]

theorem pySplit_ne_nil (sep : Char) (l : Str) : pySplit sep l ≠ [] := by
  cases l with
  | nil => simp [pySplit]
  | cons c t =>
    simp only [pySplit]
    split <;> simp

theorem pySplit_of_not_mem {sep : Char} {l : Str} (h : sep ∉ l) : pySplit sep l = [l] := by
  induction l with
  | nil => rfl
  | cons c t ih =>
    have hc : ¬(c = sep) := by rintro rfl; exact h (List.mem_cons_self _ _)
    have ht : sep ∉ t := fun hm => h (List.mem_cons_of_mem _ hm)
    simp [pySplit, hc, ih ht]

theorem pySplit_append {sep : Char} {a : Str} (b : Str) (h : sep ∉ a) :
    pySplit sep (a ++ sep :: b) = a :: pySplit sep b := by
  induction a with
  | nil => simp [pySplit]
  | cons c t ih =>
    have hc : ¬(c = sep) := by rintro rfl; exact h (List.mem_cons_self _ _)
    have ht : sep ∉ t := fun hm => h (List.mem_cons_of_mem _ hm)
    simp [pySplit, hc, ih ht]

theorem pySplit_eq_takeWhile_cons (sep : Char) (l : Str) :
    ∃ r, pySplit sep l = l.takeWhile (fun c => !(c = sep)) :: r := by
  induction l with
  | nil => exact ⟨[], rfl⟩
  | cons c t ih =>
    obtain ⟨r, hr⟩ := ih
    by_cases hc : c = sep
    · refine ⟨pySplit sep t, ?_⟩
      simp [pySplit, hc, List.takeWhile_cons]
    · refine ⟨r, ?_⟩
      simp [pySplit, hc, List.takeWhile_cons, hr]

theorem charOfNat_digit_toNat {m : Nat} (h : m < 10) : (Char.ofNat (48 + m)).toNat = 48 + m := by
  interval_cases m <;> decide

theorem isDigitChar_ofNat {m : Nat} (h : m < 10) : isDigitChar (Char.ofNat (48 + m)) = true := by
  interval_cases m <;> decide

theorem digitsToNat_append_singleton (a : Str) (c : Char) :
    digitsToNat (a ++ [c]) = digitsToNat a * 10 + (c.toNat - 48) := by
  simp [digitsToNat, List.foldl_append]

theorem digitsToNat_natToDigitsAux {fuel n : Nat} (h : n < fuel) :
    digitsToNat (natToDigitsAux fuel n) = n := by
  induction fuel generalizing n with
  | zero => omega
  | succ fuel ih =>
    rw [natToDigitsAux]
    by_cases h10 : n < 10
    · rw [if_pos h10]
      simp [digitsToNat, charOfNat_digit_toNat h10]
    · rw [if_neg h10, digitsToNat_append_singleton, ih (by omega),
        charOfNat_digit_toNat (Nat.mod_lt _ (by omega))]
      omega

theorem digitsToNat_natToDigits (n : Nat) : digitsToNat (natToDigits n) = n :=
  digitsToNat_natToDigitsAux (Nat.lt_succ_self n)

theorem natToDigitsAux_all_digits {fuel n : Nat} (h : n < fuel) :
    ∀ c ∈ natToDigitsAux fuel n, isDigitChar c = true := by
  induction fuel generalizing n with
  | zero => omega
  | succ fuel ih =>
    rw [natToDigitsAux]
    by_cases h10 : n < 10
    · rw [if_pos h10]
      intro c hc
      simp only [List.mem_singleton] at hc
      subst hc
      exact isDigitChar_ofNat h10
    · rw [if_neg h10]
      intro c hc
      rcases List.mem_append.1 hc with h1 | h2
      · exact ih (by omega) c h1
      · simp only [List.mem_singleton] at h2
        subst h2
        exact isDigitChar_ofNat (Nat.mod_lt _ (by omega))

theorem natToDigitsAux_ne_nil {fuel n : Nat} (h : n < fuel) : natToDigitsAux fuel n ≠ [] := by
  cases fuel with
  | zero => omega
  | succ fuel =>
    rw [natToDigitsAux]
    by_cases h10 : n < 10
    · simp [h10]
    · rw [if_neg h10]
      simp

theorem isDigitChar_eq_false_of_space {c : Char} (h : isSpace c = true) :
    isDigitChar c = false := by
  simp only [isSpace, Bool.or_eq_true, decide_eq_true_eq] at h
  rcases h with ((((h | h) | h) | h) | h) | h <;> subst h <;> decide

theorem isSpace_eq_false_of_digit {c : Char} (h : isDigitChar c = true) : isSpace c = false := by
  cases hs : isSpace c with
  | false => rfl
  | true =>
    rw [isDigitChar_eq_false_of_space hs] at h
    simp at h

theorem pyStrip_natToDigits (n : Nat) : pyStrip (natToDigits n) = natToDigits n :=
  pyStrip_of_forall_not_space fun c hc =>
    isSpace_eq_false_of_digit (natToDigitsAux_all_digits (Nat.lt_succ_self n) c hc)

theorem pyIsDigit_natToDigits (n : Nat) : pyIsDigit (natToDigits n) = true := by
  have hne := natToDigitsAux_ne_nil (Nat.lt_succ_self n)
  have hall := natToDigitsAux_all_digits (Nat.lt_succ_self n)
  rw [pyIsDigit, natToDigits]
  simp only [Bool.and_eq_true, Bool.not_eq_true', List.all_eq_true]
  exact ⟨by simpa [List.isEmpty_iff] using hne, hall⟩

theorem pipe_not_mem_natToDigits (n : Nat) : '|' ∉ natToDigits n := fun hm =>
  absurd (natToDigitsAux_all_digits (Nat.lt_succ_self n) _ hm) (by decide)

/-- Structure of parsing back a serialized episode, for well-formed
fields: the split yields timestamp, category, the intensity digits, and
then the split pieces of the note; the parsed note is the stretch of the
note before its first delimiter. -/
theorem parseLine_serializeEpisode (ts cat note : Str) (i : Int)
    (hts : pyStrip ts = ts) (htsp : '|' ∉ ts)
    (hcat : pyStrip cat = cat) (hcatp : '|' ∉ cat)
    (hi : 0 ≤ i) (hn : pyStrip note = note) :
    parseLine (serializeEpisode ⟨ts, cat, i, note⟩) =
      some ⟨ts, cat, i, pyStrip (note.takeWhile (fun c => !(c = '|')))⟩ := by
  obtain ⟨r, hr⟩ := pySplit_eq_takeWhile_cons '|' note
  have hdig : intToStr i = natToDigits i.toNat := by
    rw [intToStr, if_neg (by omega)]
  have hser : serializeEpisode ⟨ts, cat, i, note⟩ =
      ts ++ '|' :: ((cat ++ '|' :: natToDigits i.toNat) ++ '|' :: note) := by
    simp [serializeEpisode, hdig]
  have hstrip : pyStrip (serializeEpisode ⟨ts, cat, i, note⟩) =
      serializeEpisode ⟨ts, cat, i, note⟩ := by
    rw [hser]
    exact pyStrip_append_sep (cat ++ '|' :: natToDigits i.toNat) hts hn
  have hsplit : pySplit '|' (serializeEpisode ⟨ts, cat, i, note⟩) =
      ts :: cat :: natToDigits i.toNat ::
        note.takeWhile (fun c => !(c = '|')) :: r := by
    have h1 : serializeEpisode ⟨ts, cat, i, note⟩ =
        ts ++ '|' :: (cat ++ '|' :: (natToDigits i.toNat ++ '|' :: note)) := by
      simp [serializeEpisode, hdig]
    rw [h1, pySplit_append _ htsp, pySplit_append _ hcatp,
      pySplit_append _ (pipe_not_mem_natToDigits _), hr]
  have hne : serializeEpisode ⟨ts, cat, i, note⟩ ≠ [] := by
    rw [hser]
    simp
  have hmem : '|' ∈ serializeEpisode ⟨ts, cat, i, note⟩ := by
    rw [hser]
    exact List.mem_append.2 (Or.inr (List.mem_cons_self _ _))
  have hlen : 4 ≤ (ts :: cat :: natToDigits i.toNat ::
      note.takeWhile (fun c => !(c = '|')) :: r).length := by
    simp only [List.length_cons]
    omega
  simp only [parseLine, hstrip, hsplit]
  rw [if_neg hne, if_pos hmem, if_pos hlen]
  have e0 : field (ts :: cat :: natToDigits i.toNat ::
      note.takeWhile (fun c => !(c = '|')) :: r) 0 = ts := rfl
  have e1 : field (ts :: cat :: natToDigits i.toNat ::
      note.takeWhile (fun c => !(c = '|')) :: r) 1 = cat := rfl
  have e2 : field (ts :: cat :: natToDigits i.toNat ::
      note.takeWhile (fun c => !(c = '|')) :: r) 2 = natToDigits i.toNat := rfl
  have e3 : field (ts :: cat :: natToDigits i.toNat ::
      note.takeWhile (fun c => !(c = '|')) :: r) 3 =
      note.takeWhile (fun c => !(c = '|')) := rfl
  rw [e0, e1, e2, e3, hts, hcat, pyStrip_natToDigits,
    pyIsDigit_natToDigits, if_pos rfl, digitsToNat_natToDigits, Int.toNat_of_nonneg hi]

/-- Claim C1, counterexample: the episode with note `" x"` has no `'|'`
in its note, yet serializing and parsing it back does not return the
original episode (the parser strips the leading space of the note). -/
theorem serialize_parse_roundTrip_cex :
    '|' ∉ [' ', 'x'] ∧
      parseLine (serializeEpisode ⟨str "2025-01-01 10:00:00", str "cat", 5, [' ', 'x']⟩) ≠
        some ⟨str "2025-01-01 10:00:00", str "cat", 5, [' ', 'x']⟩ := by
  decide

/-- Claim C1 (amended): serializing an Episode to a log line and parsing
the line back yields the original Episode, provided the note contains no
`'|'` character and, in addition, the timestamp, category and note carry
no leading/trailing whitespace (they equal their stripped forms), the
timestamp and category contain no `'|'`, and the intensity is
non-negative. -/
theorem serialize_parse_roundTrip (e : Episode)
    (hts : pyStrip e.timestamp = e.timestamp) (htsp : '|' ∉ e.timestamp)
    (hcat : pyStrip e.category = e.category) (hcatp : '|' ∉ e.category)
    (hi : 0 ≤ e.intensity)
    (hn : pyStrip e.note = e.note) (hnp : '|' ∉ e.note) :
    parseLine (serializeEpisode e) = some e := by
  obtain ⟨ts, cat, i, note⟩ := e
  rw [parseLine_serializeEpisode ts cat note i hts htsp hcat hcatp hi hn]
  have htake : note.takeWhile (fun c => !(c = '|')) = note :=
    takeWhile_eq_self_of_forall fun c hc => by
      simp only [Bool.not_eq_true', decide_eq_false_iff_not]
      rintro rfl
      exact hnp hc
  rw [htake, hn]

/-- Witness for C1's amended round-trip theorem at a concrete episode. -/
theorem serialize_parse_roundTrip_wit :
    parseLine (serializeEpisode ⟨str "2025-01-01 10:00:00", str "cat", 5, str "hello"⟩) =
      some ⟨str "2025-01-01 10:00:00", str "cat", 5, str "hello"⟩ :=
  serialize_parse_roundTrip ⟨str "2025-01-01 10:00:00", str "cat", 5, str "hello"⟩
    (by decide) (by decide) (by decide) (by decide) (by decide) (by decide) (by decide)

/-- Claim C2, counterexample: a line whose intensity field is `"15"` —
numeric but outside `[1,10]` — parses to intensity 15, not to the
claimed default 5. -/
theorem intensity_default_cex :
    parseLine (str "2025-01-01 00:00:00|cat|15|note") =
      some ⟨str "2025-01-01 00:00:00", str "cat", 15, str "note"⟩ ∧ (15 : Int) ≠ 5 := by
  decide

/-- Claim C2 (amended): for every log line that contains a `'|'` and
splits into at least 4 pipe-delimited fields, if its intensity field
(field index 2, stripped) is not a digit string, parsing yields an
Episode with intensity 5 for that record, and the load is not aborted (a
record is still produced from the line, and the loader goes on to the
remaining lines).  A digit-string intensity field is kept at its numeric
value even when it lies outside `[1,10]`. -/
theorem intensity_default (line : Str)
    (hne : pyStrip line ≠ []) (hmem : '|' ∈ pyStrip line)
    (hlen : 4 ≤ (pySplit '|' (pyStrip line)).length)
    (hdig : pyIsDigit (pyStrip (field (pySplit '|' (pyStrip line)) 2)) = false) :
    parseLine line =
      some { timestamp := pyStrip (field (pySplit '|' (pyStrip line)) 0)
           , category := pyStrip (field (pySplit '|' (pyStrip line)) 1)
           , intensity := 5
           , note := pyStrip (field (pySplit '|' (pyStrip line)) 3) } ∧
      ∀ rest, loadThoughts (line :: rest) =
        { timestamp := pyStrip (field (pySplit '|' (pyStrip line)) 0)
        , category := pyStrip (field (pySplit '|' (pyStrip line)) 1)
        , intensity := 5
        , note := pyStrip (field (pySplit '|' (pyStrip line)) 3) } ::
          loadThoughts rest := by
  have hparse : parseLine line =
      some { timestamp := pyStrip (field (pySplit '|' (pyStrip line)) 0)
           , category := pyStrip (field (pySplit '|' (pyStrip line)) 1)
           , intensity := 5
           , note := pyStrip (field (pySplit '|' (pyStrip line)) 3) } := by
    simp only [parseLine]
    rw [if_neg hne, if_pos hmem, if_pos hlen, if_neg (by simp [hdig])]
  refine ⟨hparse, fun rest => ?_⟩
  simp [loadThoughts, hparse]

/-- Witness for C2's amended theorem at a concrete malformed line. -/
theorem intensity_default_wit :
    parseLine (str "2025-01-01 00:00:00|cat|xx|note") =
      some ⟨str "2025-01-01 00:00:00", str "cat", 5, str "note"⟩ := by
  have h := (intensity_default (str "2025-01-01 00:00:00|cat|xx|note")
    (by decide) (by decide) (by decide) (by decide)).1
  rw [h]
  decide

/-- Claim C10: for every log line splitting into more than 4
pipe-delimited fields, parsing keeps only the first four: the note
becomes field index 3 alone and later fields are dropped; consequently a
serialized note containing a `'|'` comes back as only the stretch of the
note before its first delimiter (stripped). -/
theorem extra_fields_dropped :
    (∀ line : Str,
      pyStrip line ≠ [] → '|' ∈ pyStrip line →
      4 < (pySplit '|' (pyStrip line)).length →
      parseLine line =
        some { timestamp := pyStrip (field (pySplit '|' (pyStrip line)) 0)
             , category := pyStrip (field (pySplit '|' (pyStrip line)) 1)
             , intensity :=
                 if pyIsDigit (pyStrip (field (pySplit '|' (pyStrip line)) 2)) then
                   ((digitsToNat (pyStrip (field (pySplit '|' (pyStrip line)) 2))) : Int)
                 else 5
             , note := pyStrip (field (pySplit '|' (pyStrip line)) 3) }) ∧
    (∀ ts cat note : Str, ∀ i : Int,
      pyStrip ts = ts → '|' ∉ ts → pyStrip cat = cat → '|' ∉ cat →
      0 ≤ i → pyStrip note = note → '|' ∈ note →
      parseLine (serializeEpisode ⟨ts, cat, i, note⟩) =
        some ⟨ts, cat, i, pyStrip (note.takeWhile (fun c => !(c = '|')))⟩) := by
  constructor
  · intro line hne hmem hlen
    simp only [parseLine]
    rw [if_neg hne, if_pos hmem, if_pos (by omega)]
  · intro ts cat note i hts htsp hcat hcatp hi hn _
    exact parseLine_serializeEpisode ts cat note i hts htsp hcat hcatp hi hn

/-- Witness for C10 at concrete inputs: a five-field line keeps only the
first four fields, and a round trip with note `"a|b"` returns note
`"a"`. -/
theorem extra_fields_dropped_wit :
    parseLine (str "t|c|7|x|y") = some ⟨['t'], ['c'], 7, ['x']⟩ ∧
      parseLine (serializeEpisode ⟨str "2025-01-01 10:00:00", str "cat", 5, str "a|b"⟩) =
        some ⟨str "2025-01-01 10:00:00", str "cat", 5, ['a']⟩ := by
  constructor
  · have h := extra_fields_dropped.1 (str "t|c|7|x|y") (by decide) (by decide) (by decide)
    rw [h]
    decide
  · have h := extra_fields_dropped.2 (str "2025-01-01 10:00:00") (str "cat") (str "a|b") 5
      (by decide) (by decide) (by decide) (by decide) (by decide) (by decide) (by decide)
    rw [h]
    decide

/-- Claim C3: for every daily-minutes series of length at least 2 (its
values non-negative, as minutes are), the trend splits the list
positionally into a first half of `floor(n/2)` items and the rest, and
classifies "improving" iff the second-half mean is `< 0.9` times the
first-half mean, "increasing" iff it is `> 1.1` times the first-half
mean, and "stable" otherwise; in particular `[10,10,10,50,50,50]` is
"increasing", `[50,50,50,10,10,10]` is "improving", and
`[30,30,30,30,30,30]` is "stable". -/
theorem series_trend_spec (l : List ℚ) (hnn : ∀ x ∈ l, 0 ≤ x) (h2 : 2 ≤ l.length) :
    ((calculateTrend l = "improving" ↔
        specSecondHalfMean l < (9 / 10) * specFirstHalfMean l) ∧
      (calculateTrend l = "increasing" ↔
        (11 / 10) * specFirstHalfMean l < specSecondHalfMean l) ∧
      (calculateTrend l = "stable" ↔
        ¬(specSecondHalfMean l < (9 / 10) * specFirstHalfMean l) ∧
        ¬((11 / 10) * specFirstHalfMean l < specSecondHalfMean l))) ∧
    calculateTrend [10, 10, 10, 50, 50, 50] = "increasing" ∧
    calculateTrend [50, 50, 50, 10, 10, 10] = "improving" ∧
    calculateTrend [30, 30, 30, 30, 30, 30] = "stable" := by
  have hfa0 : 0 ≤ specFirstHalfMean l := by
    apply div_nonneg
    · exact List.sum_nonneg fun x hx => hnn x (List.take_subset _ _ hx)
    · positivity
  have hcode : calculateTrend l =
      if specSecondHalfMean l < specFirstHalfMean l * (9 / 10) then "improving"
      else if specFirstHalfMean l * (11 / 10) < specSecondHalfMean l then "increasing"
      else "stable" := by
    simp only [calculateTrend, specFirstHalfMean, specSecondHalfMean]
    rw [if_neg (by omega : ¬l.length < 2),
      if_pos (by omega : 0 < l.length / 2),
      if_pos (by omega : l.length / 2 < l.length)]
  refine ⟨?_, by norm_num [calculateTrend, List.take, List.drop],
    by norm_num [calculateTrend, List.take, List.drop],
    by norm_num [calculateTrend, List.take, List.drop]⟩
  rw [hcode]
  set fa := specFirstHalfMean l with hfadef
  set sa := specSecondHalfMean l with hsadef
  have hexcl : ¬(sa < fa * (9 / 10) ∧ fa * (11 / 10) < sa) := by
    rintro ⟨hlow, hhigh⟩
    nlinarith
  split_ifs with hA hB
  · refine ⟨⟨fun _ => by linarith, fun _ => rfl⟩, ?_, ?_⟩
    · exact ⟨fun h => absurd h (by decide), fun h => absurd ⟨hA, by linarith⟩ hexcl⟩
    · exact ⟨fun h => absurd h (by decide), fun h => absurd (by linarith : sa < (9/10) * fa) (by rw [mul_comm] at hA ⊢; exact fun hh => h.1 (by linarith))⟩
  · refine ⟨⟨fun h => absurd h (by decide), fun h => absurd ⟨by linarith, hB⟩ hexcl⟩, ?_, ?_⟩
    · exact ⟨fun _ => by linarith, fun _ => rfl⟩
    · exact ⟨fun h => absurd h (by decide), fun h => absurd h.2 (fun _ => by exact absurd (by linarith : (11/10) * fa < sa) h.2)⟩
  · refine ⟨⟨fun h => absurd h (by decide), fun hspec => absurd (by linarith : sa < fa * (9/10)) hA⟩, ?_, ?_⟩
    · exact ⟨fun h => absurd h (by decide), fun hspec => absurd (by linarith : fa * (11/10) < sa) hB⟩
    · exact ⟨fun _ => ⟨fun hspec => hA (by linarith), fun hspec => hB (by linarith)⟩, fun _ => rfl⟩

/-- Witness for C3 at the series `[10,10,10,50,50,50]`. -/
theorem series_trend_spec_wit : calculateTrend [10, 10, 10, 50, 50, 50] = "increasing" :=
  (series_trend_spec [10, 10, 10, 50, 50, 50] (by decide) (by decide)).2.1

/-- Claim C4: for every non-empty minutes series, the computed median is
the middle element of the (ascending) sorted values for an odd count,
and the average of the two middle sorted values for an even count; in
particular `median [10,20,30] = 20` and `median [10,20,30,40] = 25`.
The sorted order is characterized by any sorted permutation `s` of the
series. -/
theorem median_spec (l : List ℚ) (hne : l ≠ []) (s : List ℚ)
    (hp : s.Perm l) (hs : List.Sorted (· ≤ ·) s) :
    ((l.length % 2 = 1 → calculateMedian l = s.getD (l.length / 2) 0) ∧
      (l.length % 2 = 0 → calculateMedian l =
        (s.getD (l.length / 2 - 1) 0 + s.getD (l.length / 2) 0) / 2)) ∧
    calculateMedian [10, 20, 30] = 20 ∧ calculateMedian [10, 20, 30, 40] = 25 := by
  have hsort : s = List.insertionSort (· ≤ ·) l :=
    List.eq_of_perm_of_sorted (hp.trans (List.perm_insertionSort _ l).symm) hs
      (List.sorted_insertionSort _ l)
  have hlen : (List.insertionSort (· ≤ ·) l).length = l.length :=
    (List.perm_insertionSort _ l).length_eq
  refine ⟨?_, by norm_num [calculateMedian, List.insertionSort, List.orderedInsert, List.getD],
    by norm_num [calculateMedian, List.insertionSort, List.orderedInsert, List.getD]⟩
  subst hsort
  constructor
  · intro hodd
    simp only [calculateMedian, hlen]
    rw [if_neg (by omega)]
  · intro heven
    simp only [calculateMedian, hlen]
    rw [if_pos heven]

/-- Witness for C4 at the series `[10,20,30]` with sorted permutation
`[10,20,30]`. -/
theorem median_spec_wit : calculateMedian [10, 20, 30] = [(10 : ℚ), 20, 30].getD (3 / 2) 0 :=
  ((median_spec [10, 20, 30] (by decide) [10, 20, 30] (by decide) (by decide)).1).1 (by decide)

/-- Claim C8, counterexample: a one-entry daily series is non-empty, yet
the trend field of its statistics snapshot is `"neutral"`, which is none
of improving / increasing / stable. -/
theorem stats_trend_cex :
    (calculateStats [⟨str "2025-01-15", 30⟩]).map Stats.trend = some "neutral" ∧
      ¬("neutral" = "improving" ∨ "neutral" = "increasing" ∨ "neutral" = "stable") := by
  constructor
  · rfl
  · decide

/-- Claim C8 (amended): for every daily series with at least two
entries, the trend field of the statistics snapshot is one of exactly
"improving", "increasing" or "stable" (a one-entry series instead gets
`"neutral"`). -/
theorem stats_trend_amended (data : List DailyEntry) (h2 : 2 ≤ data.length) :
    (calculateStats data).map Stats.trend =
      some (calculateTrend (data.map fun d => d.minutes)) ∧
    (calculateTrend (data.map fun d => d.minutes) = "improving" ∨
      calculateTrend (data.map fun d => d.minutes) = "increasing" ∨
      calculateTrend (data.map fun d => d.minutes) = "stable") := by
  have hne : data.isEmpty = false := by
    cases data with
    | nil => simp at h2
    | cons a t => rfl
  constructor
  · simp only [calculateStats]
    rw [if_neg (by simp [hne])]
    rfl
  · have hlen : 2 ≤ (data.map fun d => d.minutes).length := by
      simpa using h2
    simp only [calculateTrend]
    rw [if_neg (by omega)]
    split_ifs <;> simp

/-- Witness for C8's amended theorem at a concrete two-entry series. -/
theorem stats_trend_amended_wit :
    (calculateStats [⟨str "2025-01-15", 30⟩, ⟨str "2025-01-16", 40⟩]).map Stats.trend =
      some (calculateTrend [30, 40]) :=
  (stats_trend_amended [⟨str "2025-01-15", 30⟩, ⟨str "2025-01-16", 40⟩] (by decide)).1

/-- Claim C5: relative to a reference instant, the weekly summary keeps
exactly the episodes whose timestamp parses and lies at or after
`now - 7 days` (inclusive boundary); episodes outside the window or with
unparseable timestamps are excluded.  The concrete conjuncts check the
boundary with the reference `2025-01-15 12:00:00`: `2025-01-08 12:00:00`
is exactly `now - 7 days` and is kept, one second earlier is dropped,
and an unparseable timestamp is dropped. -/
theorem weekly_filter_spec :
    (∀ nowSec : Int, ∀ thoughts : List Episode, ∀ e : Episode,
        e ∈ weeklyFilter nowSec thoughts ↔
          e ∈ thoughts ∧ ∃ dt, parseTimestamp e.timestamp = some dt ∧
            nowSec - 7 * 86400 ≤ (toEpochSeconds dt : Int)) ∧
    ((parseTimestamp (str "2025-01-08 12:00:00")).map
        (fun d => (toEpochSeconds d : Int)) = some (nowRef - 7 * 86400)) ∧
    weeklyFilter nowRef [⟨str "2025-01-08 12:00:00", str "c", 5, []⟩] =
      [⟨str "2025-01-08 12:00:00", str "c", 5, []⟩] ∧
    weeklyFilter nowRef [⟨str "2025-01-08 11:59:59", str "c", 5, []⟩] = [] ∧
    weeklyFilter nowRef [⟨str "not a timestamp!!", str "c", 5, []⟩] = [] := by
  refine ⟨?_, by decide, by decide, by decide, by decide⟩
  intro nowSec thoughts e
  simp only [weeklyFilter, List.mem_filter]
  constructor
  · rintro ⟨hmem, hp⟩
    refine ⟨hmem, ?_⟩
    cases hts : parseTimestamp e.timestamp with
    | none => rw [hts] at hp; cases hp
    | some dt =>
      rw [hts] at hp
      exact ⟨dt, rfl, by simpa using hp⟩
  · rintro ⟨hmem, dt, hts, hle⟩
    refine ⟨hmem, ?_⟩
    rw [hts]
    simpa using hle

/-- Claim C6: the CSV reader discards the first physical line whatever
its content (the result does not depend on it); any later line whose
stripped, lowercased text contains one of the keywords date / minutes /
time / duration is skipped; a data row `"2025-01-15,45"` becomes the
entry `{date := "2025-01-15", minutes := 45}`; and a row `"bad,row,x"`
whose second field is not a float is skipped without aborting — the row
after it is still parsed. -/
theorem csv_reader_spec :
    (∀ l1 l2 : Str, ∀ rest : List Str,
        readDailyData (l1 :: rest) = readDailyData (l2 :: rest)) ∧
    (∀ n : Nat, ∀ line : Str, ∀ rest : List Str,
        hasHeaderKeyword (pyStrip line) = true →
        readRows n (line :: rest) = readRows (n + 1) rest) ∧
    readDailyData [str "Date,Minutes", str "bad,row,x", str "2025-01-15,45"] =
      [{ date := str "2025-01-15", minutes := 45 }] := by
  have hfirst : ∀ line : Str, ∀ rest : List Str,
      readRows 1 (line :: rest) = readRows 2 rest := by
    intro line rest
    simp only [readRows]
    by_cases h : pyStrip line = []
    · rw [if_pos h]
    · rw [if_neg h, if_pos (Or.inl trivial)]
  refine ⟨fun l1 l2 rest => ?_, fun n line rest hkw => ?_, by decide⟩
  · rw [readDailyData, readDailyData, hfirst, hfirst]
  · simp only [readRows]
    by_cases h : pyStrip line = []
    · rw [if_pos h]
    · rw [if_neg h, if_pos (Or.inr hkw)]

/-- Witness for C6 (keyword-skipping conjunct) at a concrete line whose
content contains the keyword `date`. -/
theorem csv_reader_spec_wit :
    readRows 2 (str "my date list" :: [str "2025-01-15,45"]) =
      readRows 3 [str "2025-01-15,45"] :=
  csv_reader_spec.2.1 2 (str "my date list") [str "2025-01-15,45"] (by decide)

/-- Claim C7, counterexample: with one episode of intensity 4 whose
timestamp parses and one of intensity 10 whose timestamp does not, the
program's "Average Intensity" is `4 / 2 = 2`, while the arithmetic mean
over exactly the parseable episodes is `4 / 1 = 4`: the sum ranges over
the parseable episodes but the divisor is the total stored count. -/
theorem avg_intensity_cex :
    analyzeAvgIntensity
        [⟨str "2025-01-15 12:00:00", str "c", 4, []⟩, ⟨str "garbage!!", str "c", 10, []⟩] =
      some 2 ∧
    List.filter parseableTs
        [⟨str "2025-01-15 12:00:00", str "c", 4, []⟩, ⟨str "garbage!!", str "c", 10, []⟩] =
      [⟨str "2025-01-15 12:00:00", str "c", 4, []⟩] ∧
    ((List.map (fun t => (t.intensity : ℚ)) [(⟨str "2025-01-15 12:00:00", str "c", 4, []⟩ :
        Episode)]).sum / (([(⟨str "2025-01-15 12:00:00", str "c", 4, []⟩ : Episode)].length : ℕ) : ℚ)) = 4 ∧
    (2 : ℚ) ≠ 4 := by
  have hfil : List.filter parseableTs
      [(⟨str "2025-01-15 12:00:00", str "c", 4, []⟩ : Episode), ⟨str "garbage!!", str "c", 10, []⟩] =
      [⟨str "2025-01-15 12:00:00", str "c", 4, []⟩] := by decide
  refine ⟨?_, hfil, by norm_num, by norm_num⟩
  simp only [analyzeAvgIntensity, hfil]
  norm_num

/-- Claim C7 (amended): for every non-empty episode sequence with at
least one parseable timestamp, the computed average intensity equals the
sum of intensities over exactly the episodes whose timestamp parses,
divided by the total number of stored episodes (episodes with
unparseable timestamps are excluded from the sum but still counted in
the divisor). -/
theorem avg_intensity_amended (thoughts : List Episode)
    (hne : thoughts ≠ []) (hp : thoughts.filter parseableTs ≠ []) :
    analyzeAvgIntensity thoughts =
      some ((((thoughts.filter parseableTs).map fun t => (t.intensity : ℚ)).sum) /
        ((thoughts.length : ℕ) : ℚ)) := by
  simp only [analyzeAvgIntensity]
  rw [if_neg (by simpa [List.isEmpty_iff] using hne),
    if_neg (by simpa [List.isEmpty_iff] using hp)]

/-- Witness for C7's amended theorem at a concrete one-episode list. -/
theorem avg_intensity_amended_wit :
    analyzeAvgIntensity [⟨str "2025-01-15 12:00:00", str "c", 4, []⟩] =
      some (((List.filter parseableTs [(⟨str "2025-01-15 12:00:00", str "c", 4, []⟩ :
          Episode)]).map fun t => (t.intensity : ℚ)).sum /
        (([(⟨str "2025-01-15 12:00:00", str "c", 4, []⟩ : Episode)].length : ℕ) : ℚ)) :=
  avg_intensity_amended [⟨str "2025-01-15 12:00:00", str "c", 4, []⟩]
    (by decide) (by decide)

/-- Claim C9, counterexample: with the dry-run flag on, the report
export still produces a write whenever a statistics snapshot is
available — the export path never consults the flag, so dry-run does not
gate all persistence operations. -/
theorem dry_run_cex :
    (exportAction true (calculateStats [⟨str "2025-01-15", 45⟩])
      [⟨str "2025-01-15", 45⟩]).isSome = true := by
  rfl

/-- Claim C9 (amended): the dry-run flag gates the episode-log save —
with the flag on, `save_thoughts` writes nothing for any episode list —
but it does not gate the report export, which writes whenever a
statistics snapshot is available, independently of the flag. -/
theorem dry_run_gating :
    (∀ thoughts : List Episode, saveThoughts true thoughts = none) ∧
    (∀ s : Stats, ∀ data : List DailyEntry,
      exportAction true (some s) data = some (s, data)) :=
  ⟨fun _ => rfl, fun _ _ => rfl⟩

end App
